import Mathlib

/-!
Verification of the Azure Service Bus broker adapter
(`v1/brokers/servicebus/servicebus.go`).

The Go source is shallowly embedded: the decision logic of `consumeOne`,
`Publish` and the receive loop of `StartConsuming` become pure Lean
functions over explicit parameters standing for the external collaborators
(JSON codec, task registry, task processor, transport send/receive), and
the shutdown interaction between `StartConsuming`, the worker goroutines
and `StopConsuming` becomes an explicit labelled transition system whose
interleavings model the Go scheduler.
-/

namespace ServiceBus

/-- A Go `context.Context` as far as this file needs it: either
`context.Background()` (fresh, never cancelled) or the context produced by
`context.WithCancel` in `StartConsuming` (carrying its cancellation state). -/
inductive Ctx where
  | background
  | withCancel (cancelled : Bool)
  deriving DecidableEq, Repr

/-- Whether a context has been cancelled.  `context.Background()` is never
cancelled. -/
def Ctx.isCancelled : Ctx → Bool
  | .background => false
  | .withCancel c => c

/-- The three terminal resolutions a Service Bus message can receive:
`msg.Complete`, `msg.Abandon`, or `msg.DeadLetter` with a reason string. -/
inductive Resolution where
  | complete
  | abandon
  | deadLetter (reason : String)
  deriving DecidableEq, Repr

/-- One resolution call as issued by `consumeOne`: which terminal operation
was invoked and with which context. -/
structure ResolutionCall where
  ctx : Ctx
  res : Resolution
  deriving DecidableEq, Repr

/-- A JSON scalar as kept by a decoder running in `UseNumber` mode: integer
literals are retained exactly (`json.Number`), never coerced to a binary
floating-point value. -/
inductive JValue where
  | jnull
  | jbool (b : Bool)
  | jint (n : Int)
  | jstr (s : String)
  deriving DecidableEq, Repr

/-- The fields of `tasks.Signature` that this broker file reads or writes:
`UUID` (message identity), `Name` (registry lookup), `RoutingKey`
(written by `AdjustRoutingKey`), `ETA` (optional future-delivery instant,
modelled as an integer timeline point), `IgnoreWhenTaskNotRegistered`, and
the otherwise uninterpreted argument payload. -/
structure Signature where
  uuid : String
  name : String
  routingKey : String
  eta : Option Int
  ignoreWhenTaskNotRegistered : Bool
  args : List JValue
  deriving DecidableEq, Repr

/-- The function `Broker.consumeOne` (servicebus.go:154-183), embedded as the list of
resolution calls it issues.  External collaborators are parameters:
`decode` is the JSON decode of `msg.Data` into a `tasks.Signature`
(servicebus.go:159-162), `isTaskRegistered` the registry lookup, and
`process` the task processor (`none` = `nil` error, `some e` = error `e`).
Each `return msg.X(ctx, ...)` in the source becomes a singleton list. -/
def consumeOne (ctx : Ctx) (decode : List Nat → Option Signature)
    (isTaskRegistered : String → Bool) (process : Signature → Option String)
    (data : List Nat) : List ResolutionCall :=
  if data.length = 0 then
    [⟨ctx, .deadLetter "empty message data"⟩]
  else
    match decode data with
    | none => [⟨ctx, .deadLetter "unmarshal msg data error"⟩]
    | some sig =>
      if !isTaskRegistered sig.name then
        if sig.ignoreWhenTaskNotRegistered then
          [⟨ctx, .deadLetter ("task " ++ sig.name ++ " is not registered")⟩]
        else
          [⟨ctx, .abandon⟩]
      else
        match process sig with
        | some _ => [⟨ctx, .abandon⟩]
        | none => [⟨ctx, .complete⟩]

/-- The body of each worker goroutine started in `StartConsuming`
(servicebus.go:82-90) invokes `consumeOne` with `context.Background()`,
not with the cancellable receive-loop context. -/
def workerConsumeOne (decode : List Nat → Option Signature)
    (isTaskRegistered : String → Bool) (process : Signature → Option String)
    (data : List Nat) : List ResolutionCall :=
  consumeOne Ctx.background decode isTaskRegistered process data

/-- A Service Bus transport message as built by `Publish`
(servicebus.go:134-144): payload bytes from `json.Marshal`, `msg.ID` set
from the task UUID, and the optional scheduled-delivery instant set by
`msg.ScheduleAt`. -/
structure SBMessage where
  id : String
  data : List Nat
  scheduledAt : Option Int
  deriving DecidableEq, Repr

/-- One observable transport-facing effect of a `Publish` call. -/
inductive PublishEffect where
  | adjustRoutingKey
  | send (queueHandle : String) (msg : SBMessage)
  deriving DecidableEq, Repr

/-- The publish-side state set up by `New` (servicebus.go:29-55): the single
queue handle created for the configured default queue. -/
structure PubBroker where
  publishQueue : String
  deriving DecidableEq, Repr

/-- The constructor `New` (servicebus.go:49-53): after the existence check succeeds,
`b.publishQueue` is the queue handle obtained for `cnf.DefaultQueue`. -/
def NewPubBroker (defaultQueue : String) : PubBroker :=
  { publishQueue := defaultQueue }

/-- The ETA check of `Publish` (servicebus.go:139-144): if `sig.ETA` is set
and `sig.ETA.After(now)` holds (strictly after), the message is scheduled at
the ETA; otherwise no scheduled-delivery mark is set. -/
def scheduleAt (eta : Option Int) (now : Int) : Option Int :=
  match eta with
  | some t => if now < t then some t else none
  | none => none

/-- The method `Broker.Publish` (servicebus.go:126-152), embedded as the list of
transport-facing effects it performs plus its returned error.
`adjustRoutingKey` stands for the delegated `b.AdjustRoutingKey(sig)`
(which may mutate the signature), `marshal` for `json.Marshal`
(`none` = marshal error), and `now` for `time.Now().UTC()`.  On marshal
failure the function returns the error with no transport interaction;
otherwise the message is sent through `b.publishQueue`. -/
def Publish (b : PubBroker) (adjustRoutingKey : Signature → Signature)
    (marshal : Signature → Option (List Nat)) (now : Int) (sig : Signature) :
    List PublishEffect × Option String :=
  let sig := adjustRoutingKey sig
  match marshal sig with
  | none => ([.adjustRoutingKey], some "JSON marshal error")
  | some bytes =>
    let msg : SBMessage :=
      { id := sig.uuid, data := bytes, scheduledAt := scheduleAt sig.eta now }
    ([.adjustRoutingKey, .send b.publishQueue msg], none)

/-- A field value in the JSON wire object of a task descriptor, as seen by
a decoder running with `UseNumber` (servicebus.go:161): integer literals
stay exact. -/
inductive JField where
  | fnull
  | fbool (b : Bool)
  | fint (n : Int)
  | fstr (s : String)
  | farr (xs : List JValue)
  deriving DecidableEq, Repr

/-- Modelled from the spec: the JSON wire object produced by
`json.Marshal(sig)` for a `tasks.Signature` (the `tasks` package is not
part of this source file).  Spec section 6 gives the shape
`{uuid, name, eta?, ignoreWhenTaskNotRegistered?, ...uninterpreted args}`; the
`eta` field is present exactly when the ETA is set. -/
def encodeSignature (sig : Signature) : List (String × JField) :=
  [("uuid", .fstr sig.uuid), ("name", .fstr sig.name),
   ("routing_key", .fstr sig.routingKey)]
  ++ (match sig.eta with
      | some t => [("eta", JField.fint t)]
      | none => [])
  ++ [("ignoreWhenTaskNotRegistered", .fbool sig.ignoreWhenTaskNotRegistered),
      ("args", .farr sig.args)]

/-- Look up a string field of a wire object. -/
def getStr (doc : List (String × JField)) (k : String) : Option String :=
  match doc.lookup k with
  | some (.fstr s) => some s
  | _ => none

/-- Modelled from the spec: the JSON decode of a wire object back into a
`tasks.Signature`, as performed by `consumeOne` with `decoder.UseNumber()`
(servicebus.go:159-162).  `UseNumber` keeps numeric literals as exact
`json.Number` values, so the integer ETA and integer payload values are
reproduced without floating-point coercion; absent optional fields take Go
zero values (`nil` ETA, `false` flag, empty args). -/
def decodeSignature (doc : List (String × JField)) : Option Signature :=
  match getStr doc "uuid", getStr doc "name", getStr doc "routing_key" with
  | some uuid, some name, some rk =>
    let eta : Option Int :=
      match doc.lookup "eta" with
      | some (.fint t) => some t
      | _ => none
    let ignore : Bool :=
      match doc.lookup "ignoreWhenTaskNotRegistered" with
      | some (.fbool b) => b
      | _ => false
    let args : List JValue :=
      match doc.lookup "args" with
      | some (.farr xs) => xs
      | _ => []
    some { uuid := uuid, name := name, routingKey := rk, eta := eta,
           ignoreWhenTaskNotRegistered := ignore, args := args }
  | _, _, _ => none

/-- The queue handles named by the send effects of a publish trace, in
order. -/
def sentQueues : List PublishEffect → List String
  | [] => []
  | .adjustRoutingKey :: rest => sentQueues rest
  | .send q _ :: rest => q :: sentQueues rest

/-- The receive loop of `StartConsuming` (servicebus.go:97-105), embedded
with explicit fuel.  `receive i` is the outcome of the `i`-th call to
`queue.Receive(ctx, concurrentHandler)` (`none` = nil error, `some e` =
error `e`).  The loop breaks on a nil error; on an error it logs the error
and immediately calls `Receive` again with no backoff and no retry cap.
The result is `some (k, logs)` when the loop broke at attempt `k` having
logged `logs`, and `none` when `fuel` attempts did not reach a break. -/
def receiveLoopFrom (receive : Nat → Option String) : Nat → Nat → Option (Nat × List String)
  | 0, _ => none
  | fuel + 1, i =>
    match receive i with
    | none => some (i, [])
    | some e =>
      match receiveLoopFrom receive fuel (i + 1) with
      | none => none
      | some (k, logs) => some (k, e :: logs)

/-- The receive loop started from its first attempt. -/
def receiveLoop (receive : Nat → Option String) (fuel : Nat) : Option (Nat × List String) :=
  receiveLoopFrom receive fuel 0

/-- Program counter of the `StartConsuming` goroutine that owns the receive
loop and the shutdown statements after it (servicebus.go:97-111). -/
inductive ReceivePC where
  | looping
  | broke
  | closedStopReceiving
  | exited
  deriving DecidableEq, Repr

/-- Program counter of a `StopConsuming` call (servicebus.go:115-123):
not yet called; blocked on `<-b.stopReceiving`; blocked on
`b.processingWG.Wait()`; returned. -/
inductive StopPC where
  | notCalled
  | waitDrain
  | waitWG
  | returned
  deriving DecidableEq, Repr

/-- Program counter of a worker goroutine (servicebus.go:83-89): waiting on
`range msgChan`; holding a message before `processingWG.Add(1)`; inside
`consumeOne`; after `consumeOne` before `processingWG.Done()`; exited after
the channel closed and drained. -/
inductive WorkerPC where
  | idle
  | took (m : Nat)
  | processing (m : Nat)
  | resolved (m : Nat)
  | exited
  deriving DecidableEq, Repr

/-- Shared state of one consumption session with one worker goroutine
(`concurrency = 1`): the buffered `msgChan` (capacity = concurrency), the
`stopReceiving` and stop channels, the cancellable receive-loop context,
the stop-watcher goroutine (servicebus.go:92-95), the `processingWG`
counter, and the log of resolution calls, each tagged with whether
`StopConsuming` had already returned when the call was issued. -/
structure PipelineState where
  capacity : Nat
  chanBuf : List Nat
  chanClosed : Bool
  stopReceivingClosed : Bool
  stopChanClosed : Bool
  ctxCancelled : Bool
  watcherDone : Bool
  wg : Nat
  receivePC : ReceivePC
  stopPC : StopPC
  worker : WorkerPC
  resolutions : List (Nat × Bool)
  deriving DecidableEq, Repr

/-- One scheduler step of the session: which goroutine runs its next
atomic statement. -/
inductive SchedLabel where
  | handlerEnqueue (m : Nat)
  | receiveReturnNil
  | closeStopReceiving
  | closeMsgChan
  | watcherCancel
  | stopSignal
  | stopObserveDrain
  | stopObserveWG
  | workerTake
  | workerAdd
  | workerResolve
  | workerDone
  | workerExit
  deriving DecidableEq, Repr

/-- The interleaving semantics of `StartConsuming` / `StopConsuming` / the
worker, one guarded atomic statement per label; `none` when the labelled
goroutine is not at that statement or its guard blocks.
- `handlerEnqueue`: `concurrentHandler` pushes a received message into the
  buffered `msgChan` while the receive loop is live (servicebus.go:76-79);
- `receiveReturnNil`: `queue.Receive` returns a nil error once its context
  is cancelled, breaking the loop (servicebus.go:98-100);
- `closeStopReceiving` / `closeMsgChan`: the statements after the loop
  (servicebus.go:107-109);
- `watcherCancel`: the goroutine that waits on the stop channel and cancels
  the receive context (servicebus.go:92-95);
- `stopSignal` / `stopObserveDrain` / `stopObserveWG`: the three statements
  of `StopConsuming` (servicebus.go:115-122);
- `workerTake` / `workerAdd` / `workerResolve` / `workerDone` /
  `workerExit`: the worker loop body — receive from `msgChan`,
  `processingWG.Add(1)`, the resolution call inside `consumeOne`,
  `processingWG.Done()`, and loop exit on a closed drained channel
  (servicebus.go:83-89). -/
def schedStep (s : PipelineState) : SchedLabel → Option PipelineState
  | .handlerEnqueue m =>
    if s.receivePC = ReceivePC.looping ∧ s.chanClosed = false
        ∧ s.chanBuf.length < s.capacity then
      some { s with chanBuf := s.chanBuf ++ [m] }
    else none
  | .receiveReturnNil =>
    if s.receivePC = ReceivePC.looping ∧ s.ctxCancelled = true then
      some { s with receivePC := ReceivePC.broke }
    else none
  | .closeStopReceiving =>
    if s.receivePC = ReceivePC.broke then
      some { s with stopReceivingClosed := true,
                    receivePC := ReceivePC.closedStopReceiving }
    else none
  | .closeMsgChan =>
    if s.receivePC = ReceivePC.closedStopReceiving then
      some { s with chanClosed := true, receivePC := ReceivePC.exited }
    else none
  | .watcherCancel =>
    if s.stopChanClosed = true ∧ s.watcherDone = false then
      some { s with ctxCancelled := true, watcherDone := true }
    else none
  | .stopSignal =>
    if s.stopPC = StopPC.notCalled then
      some { s with stopChanClosed := true, stopPC := StopPC.waitDrain }
    else none
  | .stopObserveDrain =>
    if s.stopPC = StopPC.waitDrain ∧ s.stopReceivingClosed = true then
      some { s with stopPC := StopPC.waitWG }
    else none
  | .stopObserveWG =>
    if s.stopPC = StopPC.waitWG ∧ s.wg = 0 then
      some { s with stopPC := StopPC.returned }
    else none
  | .workerTake =>
    match s.worker, s.chanBuf with
    | .idle, m :: rest => some { s with worker := WorkerPC.took m, chanBuf := rest }
    | _, _ => none
  | .workerAdd =>
    match s.worker with
    | .took m => some { s with wg := s.wg + 1, worker := WorkerPC.processing m }
    | _ => none
  | .workerResolve =>
    match s.worker with
    | .processing m =>
      some { s with
        resolutions := s.resolutions ++ [(m, decide (s.stopPC = StopPC.returned))],
        worker := WorkerPC.resolved m }
    | _ => none
  | .workerDone =>
    match s.worker with
    | .resolved _ => some { s with wg := s.wg - 1, worker := WorkerPC.idle }
    | _ => none
  | .workerExit =>
    match s.worker, s.chanClosed, s.chanBuf with
    | .idle, true, [] => some { s with worker := WorkerPC.exited }
    | _, _, _ => none

/-- Run a finite schedule; `none` when some step was not enabled. -/
def runSched (s : PipelineState) : List SchedLabel → Option PipelineState
  | [] => some s
  | l :: ls =>
    match schedStep s l with
    | none => none
    | some s2 => runSched s2 ls

/-- The session state right after `StartConsuming` has started its worker
and its stop-watcher and entered the receive loop, with no message yet
received and `StopConsuming` not yet called. -/
def initPipeline (capacity : Nat) : PipelineState :=
  { capacity := capacity, chanBuf := [], chanClosed := false,
    stopReceivingClosed := false, stopChanClosed := false,
    ctxCancelled := false, watcherDone := false, wg := 0,
    receivePC := ReceivePC.looping, stopPC := StopPC.notCalled,
    worker := WorkerPC.idle, resolutions := [] }

/-- A legal interleaving: message 7 is buffered in `msgChan`; shutdown is
requested and the receive loop drains and closes both channels; the worker
goroutine has not yet been scheduled, so `processingWG` is still 0 and
`StopConsuming` passes both waits and returns; only then does the worker
take the buffered message, call `processingWG.Add(1)` and resolve it. -/
def raceSchedule : List SchedLabel :=
  [.handlerEnqueue 7, .stopSignal, .watcherCancel, .receiveReturnNil,
   .closeStopReceiving, .closeMsgChan, .stopObserveDrain, .stopObserveWG,
   .workerTake, .workerAdd, .workerResolve]

/-! ## Theorems -/

/-- Claim C2: on every execution path of `consumeOne`, including all error
branches, exactly one terminal resolution call (Complete, Abandon, or
DeadLetter) is issued — never zero and never two. -/
theorem consumeOne_exactly_one_resolution (ctx : Ctx)
    (decode : List Nat → Option Signature) (isTaskRegistered : String → Bool)
    (process : Signature → Option String) (data : List Nat) :
    (consumeOne ctx decode isTaskRegistered process data).length = 1 := by
  unfold consumeOne
  split
  · rfl
  · split
    · rfl
    · split
      · split <;> rfl
      · split <;> rfl

/-- Claim C1 (counterexample to the claim as stated): a non-empty payload that
fails to decode is dead-lettered with reason `"unmarshal msg data error"`
(servicebus.go:164), which is not the reason `"unmarshal error"` stated in
the claim. -/
theorem consumeOne_unmarshal_reason_counterexample :
    consumeOne Ctx.background (fun _ => none) (fun _ => false) (fun _ => none) [1]
      = [⟨Ctx.background, Resolution.deadLetter "unmarshal msg data error"⟩]
    ∧ "unmarshal msg data error" ≠ "unmarshal error" := by
  exact ⟨rfl, by decide⟩

/-- Claim C1 (amended): `consumeOne` resolves every message according to the
state machine — empty payload → dead-letter `"empty message data"`;
undecodable payload → dead-letter `"unmarshal msg data error"`; decoded
but unregistered task → dead-letter when `IgnoreWhenTaskNotRegistered` is
set, abandon otherwise; registered task → Complete when `Process` returns
nil, abandon when it returns an error. -/
theorem consumeOne_state_machine (ctx : Ctx)
    (decode : List Nat → Option Signature) (isTaskRegistered : String → Bool)
    (process : Signature → Option String) (data : List Nat) :
    (data = [] →
      consumeOne ctx decode isTaskRegistered process data
        = [⟨ctx, Resolution.deadLetter "empty message data"⟩])
  ∧ (data ≠ [] → decode data = none →
      consumeOne ctx decode isTaskRegistered process data
        = [⟨ctx, Resolution.deadLetter "unmarshal msg data error"⟩])
  ∧ (∀ sig, data ≠ [] → decode data = some sig →
      isTaskRegistered sig.name = false →
      sig.ignoreWhenTaskNotRegistered = true →
      consumeOne ctx decode isTaskRegistered process data
        = [⟨ctx, Resolution.deadLetter ("task " ++ sig.name ++ " is not registered")⟩])
  ∧ (∀ sig, data ≠ [] → decode data = some sig →
      isTaskRegistered sig.name = false →
      sig.ignoreWhenTaskNotRegistered = false →
      consumeOne ctx decode isTaskRegistered process data
        = [⟨ctx, Resolution.abandon⟩])
  ∧ (∀ sig, data ≠ [] → decode data = some sig →
      isTaskRegistered sig.name = true → process sig = none →
      consumeOne ctx decode isTaskRegistered process data
        = [⟨ctx, Resolution.complete⟩])
  ∧ (∀ sig e, data ≠ [] → decode data = some sig →
      isTaskRegistered sig.name = true → process sig = some e →
      consumeOne ctx decode isTaskRegistered process data
        = [⟨ctx, Resolution.abandon⟩]) := by
  refine ⟨?_, ?_, ?_, ?_, ?_, ?_⟩
  · intro h
    simp [consumeOne, h]
  · intro h hd
    simp [consumeOne, List.length_eq_zero, h, hd]
  · intro sig h hd hreg hign
    simp [consumeOne, List.length_eq_zero, h, hd, hreg, hign]
  · intro sig h hd hreg hign
    simp [consumeOne, List.length_eq_zero, h, hd, hreg, hign]
  · intro sig h hd hreg hproc
    simp [consumeOne, List.length_eq_zero, h, hd, hreg, hproc]
  · intro sig e h hd hreg hproc
    simp [consumeOne, List.length_eq_zero, h, hd, hreg, hproc]

/-- Witness for `consumeOne_state_machine`: concrete runs hitting the
empty-payload branch and the successful-processing branch. -/
theorem consumeOne_state_machine_witness :
    (consumeOne Ctx.background (fun _ => none) (fun _ => true) (fun _ => none) []
      = [⟨Ctx.background, Resolution.deadLetter "empty message data"⟩])
  ∧ (consumeOne Ctx.background
      (fun _ => some ⟨"u", "add", "", none, false, []⟩) (fun _ => true)
      (fun _ => none) [1]
      = [⟨Ctx.background, Resolution.complete⟩]) := by
  constructor
  · exact (consumeOne_state_machine Ctx.background (fun _ => none)
      (fun _ => true) (fun _ => none) []).1 rfl
  · exact (consumeOne_state_machine Ctx.background
      (fun _ => some ⟨"u", "add", "", none, false, []⟩) (fun _ => true)
      (fun _ => none) [1]).2.2.2.2.1 ⟨"u", "add", "", none, false, []⟩
      (by decide) rfl rfl rfl

/-- Claim C8: every resolution call issued by a worker carries the context the
worker passed to `consumeOne`, which is `context.Background()` — fresh,
never cancelled, and distinct from the cancellable receive-loop context —
so resolving an in-flight message is never aborted by the cancellation
that stops the receive loop. -/
theorem worker_resolution_ctx_background
    (decode : List Nat → Option Signature) (isTaskRegistered : String → Bool)
    (process : Signature → Option String) (data : List Nat) :
    ∀ c ∈ workerConsumeOne decode isTaskRegistered process data,
      c.ctx = Ctx.background ∧ c.ctx.isCancelled = false
      ∧ ∀ cancelled : Bool, c.ctx ≠ Ctx.withCancel cancelled := by
  intro c hc
  have hctx : c.ctx = Ctx.background := by
    unfold workerConsumeOne consumeOne at hc
    split at hc
    · simp at hc
      simp [hc]
    · split at hc
      · simp at hc
        simp [hc]
      · split at hc
        · split at hc <;> (simp at hc; simp [hc])
        · split at hc <;> (simp at hc; simp [hc])
  refine ⟨hctx, ?_, ?_⟩
  · simp [hctx, Ctx.isCancelled]
  · intro cancelled
    simp [hctx]

/-- Witness for `worker_resolution_ctx_background`: the dead-letter call of
an empty message is issued on `context.Background()`. -/
theorem worker_resolution_ctx_background_witness :
    (⟨Ctx.background, Resolution.deadLetter "empty message data"⟩ : ResolutionCall).ctx
      = Ctx.background
    ∧ (⟨Ctx.background, Resolution.deadLetter "empty message data"⟩ : ResolutionCall).ctx.isCancelled
      = false
    ∧ ∀ cancelled : Bool,
        (⟨Ctx.background, Resolution.deadLetter "empty message data"⟩ : ResolutionCall).ctx
          ≠ Ctx.withCancel cancelled :=
  worker_resolution_ctx_background (fun _ => none) (fun _ => false)
    (fun _ => none) []
    ⟨Ctx.background, Resolution.deadLetter "empty message data"⟩
    (by simp [workerConsumeOne, consumeOne])

/-- Claim C4: if the (routing-adjusted) task's ETA is set and strictly after the
current UTC time, the sent transport message carries a scheduled-delivery
mark at that timestamp; if the ETA is unset or not after the current time,
the message is sent with no scheduled-delivery mark. -/
theorem publish_eta_scheduling (b : PubBroker)
    (adjustRoutingKey : Signature → Signature)
    (marshal : Signature → Option (List Nat)) (now : Int) (sig : Signature)
    (bytes : List Nat) (hm : marshal (adjustRoutingKey sig) = some bytes) :
    ∃ msg : SBMessage,
      (Publish b adjustRoutingKey marshal now sig).fst
        = [PublishEffect.adjustRoutingKey, PublishEffect.send b.publishQueue msg]
      ∧ (∀ t, (adjustRoutingKey sig).eta = some t → now < t →
          msg.scheduledAt = some t)
      ∧ ((adjustRoutingKey sig).eta = none → msg.scheduledAt = none)
      ∧ (∀ t, (adjustRoutingKey sig).eta = some t → ¬ now < t →
          msg.scheduledAt = none) := by
  refine ⟨{ id := (adjustRoutingKey sig).uuid, data := bytes,
            scheduledAt := scheduleAt (adjustRoutingKey sig).eta now },
         ?_, ?_, ?_, ?_⟩
  · simp [Publish, hm]
  · intro t ht hlt
    simp [scheduleAt, ht, hlt]
  · intro h
    simp [scheduleAt, h]
  · intro t ht hnlt
    simp [scheduleAt, ht, hnlt]

/-- Witness for `publish_eta_scheduling`: a task with ETA 100 published at
time 0 is sent marked for delivery at 100. -/
theorem publish_eta_scheduling_witness :
    ∃ msg : SBMessage,
      (Publish ⟨"machinery_tasks"⟩ (fun s => s) (fun _ => some [0]) 0
        ⟨"u", "add", "", some 100, false, []⟩).fst
        = [PublishEffect.adjustRoutingKey,
           PublishEffect.send "machinery_tasks" msg]
      ∧ msg.scheduledAt = some 100 := by
  obtain ⟨msg, h1, h2, h3, h4⟩ :=
    publish_eta_scheduling ⟨"machinery_tasks"⟩ (fun s => s) (fun _ => some [0])
      0 ⟨"u", "add", "", some 100, false, []⟩ [0] rfl
  exact ⟨msg, h1, h2 100 rfl (by decide)⟩

/-- Claim C7: `Publish` applies the routing adjustment before encoding — the
bytes sent are the encoding of the adjusted task and the adjustment effect
precedes everything else — and on encoding failure it returns the marshal
error at once, with no send effect and no other transport interaction. -/
theorem publish_adjust_first_no_send_on_marshal_failure (b : PubBroker)
    (adjustRoutingKey : Signature → Signature)
    (marshal : Signature → Option (List Nat)) (now : Int) (sig : Signature) :
    (∀ bytes, marshal (adjustRoutingKey sig) = some bytes →
      Publish b adjustRoutingKey marshal now sig
        = ([PublishEffect.adjustRoutingKey,
            PublishEffect.send b.publishQueue
              ⟨(adjustRoutingKey sig).uuid, bytes,
               scheduleAt (adjustRoutingKey sig).eta now⟩], none))
  ∧ (marshal (adjustRoutingKey sig) = none →
      Publish b adjustRoutingKey marshal now sig
        = ([PublishEffect.adjustRoutingKey], some "JSON marshal error")
      ∧ ∀ q m, PublishEffect.send q m
          ∉ (Publish b adjustRoutingKey marshal now sig).fst) := by
  constructor
  · intro bytes hm
    simp [Publish, hm]
  · intro hm
    refine ⟨by simp [Publish, hm], ?_⟩
    intro q m
    simp [Publish, hm]

/-- Witness for `publish_adjust_first_no_send_on_marshal_failure`: with a
failing marshal, `Publish` returns the marshal error after only the
routing adjustment. -/
theorem publish_adjust_first_no_send_on_marshal_failure_witness :
    Publish ⟨"machinery_tasks"⟩ (fun s => s) (fun _ => none) 0
        ⟨"u", "add", "", none, false, []⟩
      = ([PublishEffect.adjustRoutingKey], some "JSON marshal error") :=
  ((publish_adjust_first_no_send_on_marshal_failure ⟨"machinery_tasks"⟩
    (fun s => s) (fun _ => none) 0 ⟨"u", "add", "", none, false, []⟩).2 rfl).1

/-- Claim C9: the transport message sent by `Publish` has its message identity
set to the task descriptor's UUID (servicebus.go:136). -/
theorem publish_message_id_is_task_uuid (b : PubBroker)
    (adjustRoutingKey : Signature → Signature)
    (marshal : Signature → Option (List Nat)) (now : Int) (sig : Signature)
    (bytes : List Nat) (hm : marshal (adjustRoutingKey sig) = some bytes) :
    ∃ msg : SBMessage,
      (Publish b adjustRoutingKey marshal now sig).fst
        = [PublishEffect.adjustRoutingKey, PublishEffect.send b.publishQueue msg]
      ∧ msg.id = (adjustRoutingKey sig).uuid := by
  exact ⟨{ id := (adjustRoutingKey sig).uuid, data := bytes,
           scheduledAt := scheduleAt (adjustRoutingKey sig).eta now },
         by simp [Publish, hm], rfl⟩

/-- Witness for `publish_message_id_is_task_uuid`: the sent message of a
concrete publish has id `"uuid-1"`. -/
theorem publish_message_id_is_task_uuid_witness :
    ∃ msg : SBMessage,
      (Publish ⟨"machinery_tasks"⟩ (fun s => s) (fun _ => some [7]) 0
        ⟨"uuid-1", "add", "", none, false, []⟩).fst
        = [PublishEffect.adjustRoutingKey,
           PublishEffect.send "machinery_tasks" msg]
      ∧ msg.id = "uuid-1" :=
  publish_message_id_is_task_uuid ⟨"machinery_tasks"⟩ (fun s => s)
    (fun _ => some [7]) 0 ⟨"uuid-1", "add", "", none, false, []⟩ [7] rfl

/-- Claim C10: every send a `Publish` call performs goes through the single
queue handle created at construction for the configured default queue —
one send on marshal success, none on failure — whatever the routing
adjustment does to the descriptor. -/
theorem publish_sends_only_through_publish_queue (defaultQueue : String)
    (adjustRoutingKey : Signature → Signature)
    (marshal : Signature → Option (List Nat)) (now : Int) (sig : Signature) :
    sentQueues (Publish (NewPubBroker defaultQueue) adjustRoutingKey marshal
        now sig).fst
      = match marshal (adjustRoutingKey sig) with
        | some _ => [defaultQueue]
        | none => [] := by
  cases hm : marshal (adjustRoutingKey sig) <;>
    simp [Publish, NewPubBroker, sentQueues, hm]

/-- Claim C6: decoding (as `consumeOne` does, with `UseNumber`) the wire object
produced by the publish-side encoding reproduces the identifier, name,
ETA, flag and payload of every task descriptor exactly; integer payload
values and the ETA are `Int`-exact throughout, never coerced to a binary
floating-point value. -/
theorem signature_json_round_trip (sig : Signature) :
    decodeSignature (encodeSignature sig) = some sig := by
  cases sig with
  | mk uuid name routingKey eta ignore args => cases eta <;> rfl

/-- Helper: a break of the receive loop started at attempt `i` happens at
the first nil-error attempt at or after `i`, with one logged error per
failed attempt before it. -/
theorem receiveLoopFrom_break (receive : Nat → Option String) :
    ∀ fuel i k logs, receiveLoopFrom receive fuel i = some (k, logs) →
      i ≤ k ∧ receive k = none
      ∧ (∀ j, i ≤ j → j < k → receive j ≠ none)
      ∧ logs.length = k - i := by
  intro fuel
  induction fuel with
  | zero =>
    intro i k logs h
    simp [receiveLoopFrom] at h
  | succ n ih =>
    intro i k logs h
    unfold receiveLoopFrom at h
    cases hr : receive i with
    | none =>
      rw [hr] at h
      simp at h
      obtain ⟨hk, hlogs⟩ := h
      subst hk
      subst hlogs
      exact ⟨Nat.le_refl i, hr, fun j hij hji => absurd hji (by omega),
             by simp⟩
    | some e =>
      rw [hr] at h
      simp at h
      cases hrec : receiveLoopFrom receive n (i + 1) with
      | none =>
        rw [hrec] at h
        simp at h
      | some p =>
        rw [hrec] at h
        obtain ⟨k2, l2⟩ := p
        simp at h
        obtain ⟨hk, hlogs⟩ := h
        subst hk
        subst hlogs
        obtain ⟨hik, hk2, hbetween, hlen⟩ := ih (i + 1) k2 l2 hrec
        refine ⟨by omega, hk2, ?_, by simp [hlen]; omega⟩
        intro j hij hjk
        rcases Nat.eq_or_lt_of_le hij with heq | hlt
        · rw [← heq, hr]
          simp
        · exact hbetween j hlt hjk

/-- Helper: while every attempt keeps erroring, no amount of fuel makes
the receive loop break. -/
theorem receiveLoopFrom_all_errors (receive : Nat → Option String) :
    ∀ fuel i, (∀ j, j < fuel → receive (i + j) ≠ none) →
      receiveLoopFrom receive fuel i = none := by
  intro fuel
  induction fuel with
  | zero =>
    intro i _
    rfl
  | succ n ih =>
    intro i h
    have h0 : receive i ≠ none := by
      have := h 0 (Nat.succ_pos n)
      simpa using this
    have hrec : receiveLoopFrom receive n (i + 1) = none := by
      apply ih
      intro j hj
      have hx := h (j + 1) (Nat.succ_lt_succ hj)
      have e : i + (j + 1) = i + 1 + j := by omega
      rwa [e] at hx
    unfold receiveLoopFrom
    cases hr : receive i with
    | none => exact absurd hr h0
    | some e => simp [hrec]

/-- Claim C5: the receive loop of `StartConsuming` breaks exactly at the first
call of the transport receive primitive that returns a nil error — every
earlier attempt returned an error and was logged (one log entry per
failure) and retried immediately — and as long as every attempt errors,
no fuel bound suffices: the loop retries indefinitely with no backoff and
no retry limit. -/
theorem receive_loop_breaks_on_nil_retries_on_error (receive : Nat → Option String) :
    (∀ fuel k logs, receiveLoop receive fuel = some (k, logs) →
      receive k = none ∧ (∀ j, j < k → receive j ≠ none) ∧ logs.length = k)
  ∧ (∀ fuel, (∀ j, j < fuel → receive j ≠ none) →
      receiveLoop receive fuel = none) := by
  constructor
  · intro fuel k logs h
    unfold receiveLoop at h
    obtain ⟨hik, hk, hbetween, hlen⟩ := receiveLoopFrom_break receive fuel 0 k logs h
    exact ⟨hk, fun j hj => hbetween j (Nat.zero_le j) hj, by simpa using hlen⟩
  · intro fuel h
    unfold receiveLoop
    apply receiveLoopFrom_all_errors
    intro j hj
    simpa using h j hj

/-- Witness for `receive_loop_breaks_on_nil_retries_on_error`: two failing
receive attempts then a clean stop — the loop breaks at attempt 2 with two
logged errors. -/
theorem receive_loop_breaks_on_nil_retries_on_error_witness :
    (fun i => if i < 2 then some "receive failed" else none) 2 = none
    ∧ (∀ j, j < 2 →
        (fun i => if i < 2 then some "receive failed" else none) j ≠ none)
    ∧ (["receive failed", "receive failed"] : List String).length = 2 :=
  (receive_loop_breaks_on_nil_retries_on_error
    (fun i => if i < 2 then some "receive failed" else none)).1 3 2
    ["receive failed", "receive failed"] rfl

/-- Claim C3 (failing schedule): a legal interleaving of the code in which
`StopConsuming` returns while a received message is still buffered in
`msgChan` — the worker has not yet reached `processingWG.Add(1)`, so both
waits in `StopConsuming` pass — and afterwards the worker processes the
message and issues its resolution call: after the run, `StopConsuming` has
returned, the in-flight counter is 1, and the single resolution call is
tagged as issued after `StopConsuming` returned, contradicting "after
`StopConsuming` returns, the in-flight counter is zero and no further
resolution calls occur". -/
theorem stopConsuming_race_trace :
    (runSched (initPipeline 1) raceSchedule).map
        (fun s => (s.stopPC, s.wg, s.resolutions))
      = some (StopPC.returned, 1, [(7, true)]) := by
  rfl

end ServiceBus
